import Mathlib

/-!
Verification of the core helpers of the Fortuneo bank connector
(`src/helpers.js`): amount normalization, account-type resolution, the
hierarchical transaction-classification engine and the request-error
translator.  JavaScript objects are embedded as finite association lists
of string keys to JS values, and the in-place mutation of the metadata
accumulator is made explicit by threading its value through the
functions.
-/

namespace Fortuneo

/-- A JS value as it occurs in the classification data and in the
metadata accumulator: strings, (integral) numbers, booleans, `null`,
`undefined`, and nested objects. -/
inductive Json where
  | str (s : String)
  | num (n : Int)
  | bool (b : Bool)
  | null
  | undefined
  | obj (kvs : List (String × Json))

/-- JS truthiness of a value: `''`, `0`, `false`, `null` and `undefined`
are falsy; every non-empty string, non-zero number, `true` and every
object are truthy. -/
def truthy : Json → Bool
  | .str s => s ≠ ""
  | .num n => n ≠ 0
  | .bool b => b
  | .null => false
  | .undefined => false
  | .obj _ => true

/-- JS property access `o[k]`: looks `k` up among the object's own
properties, yielding `undefined` when the key is absent or the value is
not an object. -/
def jget : Json → String → Json
  | .obj kvs, k => (kvs.lookup k).getD .undefined
  | _, _ => .undefined

/-- JS `String.prototype.toUpperCase`, which on the ASCII tokens of
interest coincides with per-character ASCII uppercasing. -/
def jsToUpperCase (s : String) : String := String.mk (s.data.map Char.toUpper)

def splitOnCharAux (sep : Char) : List Char → List Char → List String
  | [], acc => [String.mk acc.reverse]
  | c :: cs, acc =>
    if c = sep then String.mk acc.reverse :: splitOnCharAux sep cs []
    else splitOnCharAux sep cs (c :: acc)

/-- JS `String.prototype.split` with a one-character string separator:
cut at every occurrence, never yielding an empty array (splitting the
empty string gives `[""]`). -/
def jsSplitChar (sep : Char) (s : String) : List String := splitOnCharAux sep s.data []

/-- The metadata accumulator object: a JS object with exactly the three
keys of `defaultMedataOperation` (`_id`, `_proba`, `_type`), in that
insertion order. -/
structure Metadata where
  mId : Json
  mProba : Json
  mType : Json

/-- `const defaultMedataOperation = { _id: '0', _proba: 0, _type: 'none' }`
(src/helpers.js:9-13).  In the source this is a single module-level
object whose current value we thread explicitly. -/
def defaultMedataOperation : Metadata :=
  { mId := .str "0", mProba := .num 0, mType := .str "none" }

/-- `_readDefaultMetaData(treeMetadata, metadata)` (src/helpers.js:181-185):
for each key of the metadata object (`Object.keys(metadata)` =
`['_id','_proba','_type']`), overwrite `metadata[key]` with
`treeMetadata[key]` when the latter is truthy.  The JS function mutates
`metadata` in place; here it returns the updated value. -/
def _readDefaultMetaData (treeMetadata : Json) (metadata : Metadata) : Metadata :=
  let m1 := if truthy (jget treeMetadata "_id") then
    { metadata with mId := jget treeMetadata "_id" } else metadata
  let m2 := if truthy (jget treeMetadata "_proba") then
    { m1 with mProba := jget treeMetadata "_proba" } else m1
  if truthy (jget treeMetadata "_type") then
    { m2 with mType := jget treeMetadata "_type" } else m2

/-- `_readSpecificMetaData(treeMetadata, typeOperation, metadata)`
(src/helpers.js:187-194): read the node's default fields, then, when the
node has a truthy `typeOperation` sub-record (`'_credit'` or
`'_debit'`), read that sub-record's fields on top. -/
def _readSpecificMetaData (treeMetadata : Json) (typeOperation : String)
    (metadata : Metadata) : Metadata :=
  let m := _readDefaultMetaData treeMetadata metadata
  if truthy (jget treeMetadata typeOperation) then
    _readDefaultMetaData (jget treeMetadata typeOperation) m
  else m

/-- A JS runtime exception, as far as these helpers can raise one. -/
inductive JsError where
  | typeError
  deriving Repr, DecidableEq

/-- The `for (let word of words.slice(index))` loop of `_classification`
(src/helpers.js:169-178).  Each word is uppercased and looked up among
the children of the active node; a falsy result is the early
`return metadata`; otherwise the node's metadata is read and the walk
descends.  Falling off the end of the loop is the JS function ending
without a `return` statement, so it evaluates to `undefined`: the first
component of the result is the JS return value (`none` = `undefined`),
the second is the final value of the metadata object, which the source
mutates in place. -/
def classifLoop (fnReadMetadata : Json → Metadata → Metadata) :
    Json → List String → Metadata → Option Metadata × Metadata
  | _, [], metadata => (none, metadata)
  | treeActive, word :: rest, metadata =>
    let tree := jget treeActive (jsToUpperCase word)
    if truthy tree then
      classifLoop fnReadMetadata tree rest (fnReadMetadata tree metadata)
    else
      (some metadata, metadata)

/-- `_classification(words, metadata, fnReadMetadata)`
(src/helpers.js:159-179).  The classification tree is loaded from
`../classification.json`, a data file that is not among the sources;
per the spec it is an arbitrary read-only nested mapping, so it appears
here as the parameter `classification`.  On an empty word list the JS
expression `words[0].toUpperCase()` throws a TypeError (property access
on `undefined`).  The result pairs the JS return
value (`none` when the function falls off the loop and returns
`undefined`) with the final value of the in-place-mutated `metadata`
object. -/
def _classification (classification : Json) (words : List String)
    (metadata : Metadata) (fnReadMetadata : Json → Metadata → Metadata) :
    Except JsError (Option Metadata × Metadata) :=
  match words with
  | [] => .error .typeError
  | w0 :: rest =>
    let treeActive := jget classification (jsToUpperCase w0)
    if truthy treeActive then
      let index : Nat := if w0 = "CARTE" then 2 else 1
      let metadata := fnReadMetadata treeActive metadata
      .ok (classifLoop fnReadMetadata treeActive ((w0 :: rest).drop index) metadata)
    else
      .ok (some metadata, metadata)

/-- `findMetadataForCreditOperation(words)` (src/helpers.js:121-125).
The source passes the module-level `defaultMedataOperation` object
itself as the accumulator; `dmo` is that object's current value, which
is `defaultMedataOperation` only until some call mutates it. -/
def findMetadataForCreditOperation (classification : Json) (dmo : Metadata)
    (words : List String) : Except JsError (Option Metadata × Metadata) :=
  _classification classification words dmo
    (fun tree metadata => _readSpecificMetaData tree "_credit" metadata)

/-- `findMetadataForDebitOperation(words)` (src/helpers.js:134-138),
with the same handling of the shared accumulator object as the credit
variant. -/
def findMetadataForDebitOperation (classification : Json) (dmo : Metadata)
    (words : List String) : Except JsError (Option Metadata × Metadata) :=
  _classification classification words dmo
    (fun tree metadata => _readSpecificMetaData tree "_debit" metadata)

/-- The value of the module-level `defaultMedataOperation` object after
a classification call: calls never throw on the inputs we chain, but the
total extractor keeps the previous value on an error. -/
def stateAfter (st : Metadata) : Except JsError (Option Metadata × Metadata) → Metadata
  | .ok p => p.2
  | .error _ => st

/-- A balance-scraping recipe (`scrape4Balance` in src/helpers.js):
a selector, an inner selector and a reference to the parse function,
which is always `normalizeAmount` in the source. -/
inductive ParseRef where
  | normalizeAmountFn
  deriving Repr, DecidableEq

structure ScrapeRecipe where
  sel : String
  optsSel : String
  optsParse : ParseRef
  deriving Repr, DecidableEq

/-- An `AccountType` entry (src/helpers.js:15-61): numeric id, type name
and optional balance recipe (`null` for Unknown). -/
structure AccountTypeDescriptor where
  id : Nat
  type : String
  scrape4Balance : Option ScrapeRecipe
  deriving Repr, DecidableEq

def AccountType.UNKNOWN : AccountTypeDescriptor :=
  ⟨0, "Unknown", none⟩

def AccountType.CHECKINGS : AccountTypeDescriptor :=
  ⟨1, "Checkings", some ⟨"#tableauConsultationHisto", "td>strong", .normalizeAmountFn⟩⟩

def AccountType.CREDITCARD : AccountTypeDescriptor :=
  ⟨2, "CreditCard", some ⟨"#tableauConsultationHisto", "td>a>strong", .normalizeAmountFn⟩⟩

def AccountType.SAVINGS : AccountTypeDescriptor :=
  ⟨3, "Savings",
    some ⟨"div.synthese_livret_cat a", "p.synthese_data_line_right_text", .normalizeAmountFn⟩⟩

def AccountType.MARKET : AccountTypeDescriptor :=
  ⟨4, "Market", some ⟨"#valorisation_compte>table>tbody>tr", "td.gras", .normalizeAmountFn⟩⟩

def AccountType.LIFEINSURANCE : AccountTypeDescriptor :=
  ⟨5, "LifeInsurance",
    some ⟨"div.synthese_vie>div>div.colonne_gauche>div>p>span", "strong", .normalizeAmountFn⟩⟩

/-- `AbbrToAccountType` (src/helpers.js:63-72). -/
def AbbrToAccountType : List (String × AccountTypeDescriptor) :=
  [("cco", AccountType.CHECKINGS),
   ("esp", AccountType.CHECKINGS),
   ("liv_a", AccountType.SAVINGS),
   ("liv_d", AccountType.SAVINGS),
   ("liv_p", AccountType.SAVINGS),
   ("ord", AccountType.MARKET),
   ("pea", AccountType.MARKET),
   ("vie", AccountType.LIFEINSURANCE)]

/-- The property names every plain object literal inherits from
`Object.prototype`; reading any of them on `AbbrToAccountType` yields a
truthy value (a function object, or for `__proto__` the prototype
object itself). -/
def objectPrototypeKeys : List String :=
  ["constructor", "hasOwnProperty", "isPrototypeOf", "propertyIsEnumerable",
   "toLocaleString", "toString", "valueOf", "__proto__", "__defineGetter__",
   "__defineSetter__", "__lookupGetter__", "__lookupSetter__"]

/-- What `AbbrToAccountType[cssClass[0]] || AccountType.UNKNOWN` can
evaluate to: one of the `AccountType` descriptors (an own entry of the
table, or the Unknown default), or a truthy value inherited from
`Object.prototype`, identified by its property name. -/
inductive AccountTypeResult where
  | descriptor (d : AccountTypeDescriptor)
  | inheritedProperty (name : String)
  deriving Repr, DecidableEq

/-- `getAccountTypeFromCSS(cssClasses)` (src/helpers.js:107-112):
split the class string on single spaces and keep only the first class
(`cssClass[0]` always exists since `split` never yields an empty
array).  `AbbrToAccountType[x]` is a JS property read on a plain object
literal: an own key yields its descriptor, any other key walks the
prototype chain and yields the truthy `Object.prototype` property when
`x` names one, else `undefined`; `|| AccountType.UNKNOWN` replaces only
the falsy `undefined` result, every descriptor and every inherited
property being truthy. -/
def getAccountTypeFromCSS (cssClasses : String) : AccountTypeResult :=
  let cssClass := jsSplitChar ' ' cssClasses
  let k := cssClass.headD ""
  match AbbrToAccountType.lookup k with
  | some d => .descriptor d
  | none =>
    if k ∈ objectPrototypeKeys then .inheritedProperty k
    else .descriptor AccountType.UNKNOWN

/-- An error value reaching `handleRequestErrors`: an instance of one of
the two request-promise transport error classes, or any other error
value, each carrying an opaque payload identifying the concrete
object. -/
inductive RequestFailure where
  | requestError (payload : String)
  | statusCodeError (payload : String)
  | otherError (payload : String)
  deriving Repr, DecidableEq

/-- `errors.VENDOR_DOWN` from cozy-konnector-libs. -/
def VENDOR_DOWN : String := "VENDOR_DOWN"

/-- Outcome of `handleRequestErrors`: either it throws a fresh
`new Error(errors.VENDOR_DOWN)`, or it returns `Promise.reject(err)`
carrying the original error object. -/
inductive HandleOutcome where
  | thrown (message : String)
  | rejectedWith (err : RequestFailure)
  deriving Repr, DecidableEq

/-- `err instanceof rerrors.RequestError || err instanceof
rerrors.StatusCodeError` (src/helpers.js:146-149). -/
def isTransportError : RequestFailure → Bool
  | .requestError _ => true
  | .statusCodeError _ => true
  | .otherError _ => false

/-- `handleRequestErrors(err)` (src/helpers.js:145-155).  The
`log('error', err)` call on the transport branch is a pure logging side
effect and is not modelled. -/
def handleRequestErrors (err : RequestFailure) : HandleOutcome :=
  if isTransportError err then
    HandleOutcome.thrown VENDOR_DOWN
  else
    HandleOutcome.rejectedWith err

/-- The character class of the JS regular expression `\s`: ECMAScript
WhiteSpace and LineTerminator characters (space, tab, line feed,
vertical tab, form feed, carriage return, no-break space, line and
paragraph separators, BOM; the remaining Unicode space separators are
omitted as irrelevant to every claim). -/
def jsWhitespaceChar (c : Char) : Bool :=
  c = ' ' || c = '\t' || c = '\n' || c = '\x0b' || c = '\x0c' || c = '\r' ||
  c = '\u00A0' || c = '\u2028' || c = '\u2029' || c = '\uFEFF'

/-- A JS regular expression as far as `normalizeAmount` needs one: a
single-character class together with the presence of the `g` flag.  The
literal `/\s/` in the source carries no flags. -/
structure JsRegExp where
  matchesChar : Char → Bool
  global : Bool

/-- ES2021 `String.prototype.replaceAll(searchValue, replaceValue)`:
when `searchValue` is a RegExp whose flags do not contain `"g"`, it
throws a TypeError up front, before the subject string is examined
(ECMA-262 §22.1.3.20 step 2.b).  With the flag, every match of the
single-character pattern is replaced. -/
def replaceAllRegex (s : String) (re : JsRegExp) (replacement : String) :
    Except JsError String :=
  if re.global then
    .ok (String.mk (s.data.foldr
      (fun c acc => if re.matchesChar c then replacement.data ++ acc else c :: acc) []))
  else
    .error .typeError

/-- JS `String.prototype.replace` with a one-character string pattern:
replaces only the first occurrence. -/
def replaceFirstChar : List Char → Char → Char → List Char
  | [], _, _ => []
  | c :: cs, pat, repl =>
    if c = pat then repl :: cs else c :: replaceFirstChar cs pat repl

/-- JS `String.prototype.trim`: strip WhiteSpace and LineTerminator
characters from both ends. -/
def jsTrim (s : String) : String :=
  String.mk (((s.data.dropWhile jsWhitespaceChar).reverse.dropWhile jsWhitespaceChar).reverse)

/-- A JS number as `parseFloat` can produce one: NaN, a signed
infinity, or a finite value, modelled as an exact rational (the source
performs no further float arithmetic, so double rounding is irrelevant
to the claims). -/
inductive JsNumber where
  | nan
  | inf (negative : Bool)
  | val (q : ℚ)
  deriving Repr, DecidableEq

def digitsToNat (ds : List Char) : Nat :=
  ds.foldl (fun acc c => 10 * acc + (c.toNat - 48)) 0

/-- The exponent part of a decimal literal after the `e`/`E`: an
optional sign and at least one digit, `none` when no digit follows. -/
def parseExponent (cs : List Char) : Option Int :=
  let signed : Bool × List Char :=
    match cs with
    | '-' :: r => (true, r)
    | '+' :: r => (false, r)
    | r => (false, r)
  let ds := signed.2.takeWhile Char.isDigit
  if ds = [] then none
  else some (if signed.1 then -(digitsToNat ds : Int) else (digitsToNat ds : Int))

/-- JS `parseFloat`: skip leading whitespace, then read the longest
prefix that is a `StrDecimalLiteral` (optional sign, `Infinity` or
digits with an optional fraction and exponent) and return its value;
NaN when no such prefix exists. -/
def parseFloat (s : String) : JsNumber :=
  let cs0 := s.data.dropWhile jsWhitespaceChar
  let signed : Bool × List Char :=
    match cs0 with
    | '-' :: r => (true, r)
    | '+' :: r => (false, r)
    | r => (false, r)
  let neg := signed.1
  let cs := signed.2
  if cs.take 8 = "Infinity".data then JsNumber.inf neg
  else
    let ip := cs.takeWhile Char.isDigit
    let cs1 := cs.dropWhile Char.isDigit
    let frac : List Char × List Char :=
      match cs1 with
      | '.' :: r => (r.takeWhile Char.isDigit, r.dropWhile Char.isDigit)
      | r => ([], r)
    let fp := frac.1
    if ip = [] ∧ fp = [] then JsNumber.nan
    else
      let mant : ℚ := (digitsToNat ip : ℚ) + (digitsToNat fp : ℚ) / (10 : ℚ) ^ fp.length
      let expv : Int :=
        match frac.2 with
        | 'e' :: r => (parseExponent r).getD 0
        | 'E' :: r => (parseExponent r).getD 0
        | _ => 0
      JsNumber.val ((if neg then -mant else mant) * (10 : ℚ) ^ expv)

/-- `normalizeAmount(amount)` (src/helpers.js:91-98):
`parseFloat(amount.replaceAll(/\s/, '').replace(',', '.').trim())`.
The regex literal `/\s/` carries no `g` flag, so the `replaceAll` step
throws a TypeError before anything else happens. -/
def normalizeAmount (amount : String) : Except JsError JsNumber := do
  let s1 ← replaceAllRegex amount ⟨jsWhitespaceChar, false⟩ ""
  let s2 := String.mk (replaceFirstChar s1.data ',' '.')
  pure (parseFloat (jsTrim s2))

/-- The classification tree of the spec's worked example: root key
`VIR` with default `_id` `'5'` and a `_credit` override of `_proba`
90. -/
def exampleTreeVIR : Json :=
  .obj [("VIR", .obj [("_id", .str "5"), ("_credit", .obj [("_proba", .num 90)])])]

/-- A small card tree: root key `CARTE` with one `RESTAURANT` child. -/
def exampleTreeCARTE : Json :=
  .obj [("CARTE", .obj [("_id", .str "400100"),
    ("RESTAURANT", .obj [("_id", .str "400160")])])]

/-- Every word of the list, uppercased, is a truthy child of the node
reached so far: the walk of `_classification` matches the whole list. -/
def allMatch : Json → List String → Bool
  | _, [] => true
  | tree, w :: ws =>
    truthy (jget tree (jsToUpperCase w)) && allMatch (jget tree (jsToUpperCase w)) ws

theorem classifLoop_fst_eq_none_of_allMatch (fn : Json → Metadata → Metadata) :
    ∀ (ws : List String) (tree : Json) (m : Metadata),
      allMatch tree ws = true → (classifLoop fn tree ws m).1 = none := by
  intro ws
  induction ws with
  | nil => intro tree m _; rfl
  | cons w ws ih =>
    intro tree m h
    simp only [allMatch, Bool.and_eq_true] at h
    simp only [classifLoop, h.1, if_true]
    exact ih _ _ h.2

/-- Claim C1: when the walk consumes every token (the root key matches
and each subsequent token from the computed start index matches a
child), the entry points are claimed to return the accumulated
metadata; the source's loop however ends without a `return` statement,
so both entry points return `undefined` (`none`). -/
theorem C1_full_walk_returns_undefined (classif : Json) (w0 : String)
    (rest : List String) (m : Metadata)
    (hroot : truthy (jget classif (jsToUpperCase w0)) = true)
    (hall : allMatch (jget classif (jsToUpperCase w0))
      ((w0 :: rest).drop (if w0 = "CARTE" then 2 else 1)) = true) :
    (findMetadataForCreditOperation classif m (w0 :: rest)).map Prod.fst =
      Except.ok none ∧
    (findMetadataForDebitOperation classif m (w0 :: rest)).map Prod.fst =
      Except.ok none := by
  constructor <;>
  · simp only [findMetadataForCreditOperation, findMetadataForDebitOperation,
      _classification, hroot, if_true, Except.map]
    rw [classifLoop_fst_eq_none_of_allMatch _ _ _ _ hall]

theorem C1_full_walk_returns_undefined_witness :
    (findMetadataForCreditOperation exampleTreeVIR defaultMedataOperation
      ["VIR"]).map Prod.fst = Except.ok none ∧
    (findMetadataForDebitOperation exampleTreeVIR defaultMedataOperation
      ["VIR"]).map Prod.fst = Except.ok none :=
  C1_full_walk_returns_undefined exampleTreeVIR "VIR" [] defaultMedataOperation
    (by rfl) (by rfl)

/-- Claim C2: `normalizeAmount` is claimed to map a locale-formatted
amount string such as `"1 234,56 "` to its numeric value 1234.56; the
source instead calls `String.prototype.replaceAll` with the flagless
regex `/\s/`, which throws a TypeError on this (and any) input. -/
theorem C2_normalizeAmount_throws_on_spec_example :
    normalizeAmount "1 234,56 " = Except.error JsError.typeError := rfl

/-- Claim C3: classification is claimed free of hidden mutable state,
every fresh call starting from the defaults.  The source passes the
module-level `defaultMedataOperation` object itself into the walk,
which mutates it in place: after one debit call on `["VIR"]` the shared
object holds `_id` `'5'`, and a later call on the unmatched list
`["UNMATCHED"]` returns that polluted object instead of the defaults
(`_id` `'0'`). -/
theorem C3_shared_default_metadata_mutated :
    stateAfter defaultMedataOperation
        (findMetadataForDebitOperation exampleTreeVIR defaultMedataOperation
          ["VIR"]) =
      ⟨Json.str "5", Json.num 0, Json.str "none"⟩ ∧
    findMetadataForDebitOperation exampleTreeVIR
        ⟨Json.str "5", Json.num 0, Json.str "none"⟩ ["UNMATCHED"] =
      Except.ok (some ⟨Json.str "5", Json.num 0, Json.str "none"⟩,
        ⟨Json.str "5", Json.num 0, Json.str "none"⟩) ∧
    (⟨Json.str "5", Json.num 0, Json.str "none"⟩ : Metadata) ≠
      defaultMedataOperation := by
  refine ⟨rfl, rfl, fun h => ?_⟩
  have h2 := congrArg Metadata.mId h
  simp only [defaultMedataOperation] at h2
  injection h2 with h3
  exact absurd h3 (by decide)

/-- Claim C4: normalization and classification are claimed never to
throw, `normalizeAmount` returning NaN on non-numeric input such as
`"abc"`.  The classification half holds (on a non-empty word list
`_classification` always returns normally), but `normalizeAmount`
throws a TypeError on every input, `"abc"` included, because
`replaceAll` is called with a regex lacking the `g` flag. -/
theorem C4_normalizeAmount_always_throws_classification_total :
    normalizeAmount "abc" = Except.error JsError.typeError ∧
    (∀ s : String, normalizeAmount s = Except.error JsError.typeError) ∧
    (∀ (classif : Json) (m : Metadata) (fn : Json → Metadata → Metadata)
      (w0 : String) (rest : List String),
      ∃ r, _classification classif (w0 :: rest) m fn = Except.ok r) := by
  refine ⟨rfl, fun s => rfl, ?_⟩
  intro classif m fn w0 rest
  by_cases h : truthy (jget classif (jsToUpperCase w0)) = true
  · exact ⟨classifLoop fn (jget classif (jsToUpperCase w0))
      ((w0 :: rest).drop (if w0 = "CARTE" then 2 else 1))
      (fn (jget classif (jsToUpperCase w0)) m),
      by simp only [_classification]; rw [if_pos h]⟩
  · exact ⟨(some m, m), by simp only [_classification]; rw [if_neg h]⟩

/-- Claim C5: with first token exactly `"CARTE"` the walk starts at
token index 2 — the index-1 token is never looked up (the result does
not depend on it) and the remaining tokens are matched as children of
the `CARTE` root — while any other matched first token starts the walk
at index 1. -/
theorem C5_carte_walk_starts_at_index_two (classif : Json) (m : Metadata)
    (fn : Json → Metadata → Metadata) (a b t : String) (rest : List String) :
    (_classification classif ("CARTE" :: a :: rest) m fn =
      _classification classif ("CARTE" :: b :: rest) m fn) ∧
    (truthy (jget classif "CARTE") = true →
      _classification classif ("CARTE" :: a :: rest) m fn =
        Except.ok (classifLoop fn (jget classif "CARTE") rest
          (fn (jget classif "CARTE") m))) ∧
    (t ≠ "CARTE" → truthy (jget classif (jsToUpperCase t)) = true →
      _classification classif (t :: rest) m fn =
        Except.ok (classifLoop fn (jget classif (jsToUpperCase t)) rest
          (fn (jget classif (jsToUpperCase t)) m))) := by
  refine ⟨rfl, fun h => ?_, fun hne h => ?_⟩
  · simp only [_classification]
    rw [show jsToUpperCase "CARTE" = "CARTE" from rfl, if_pos h]
    rfl
  · simp only [_classification]
    rw [if_pos h, if_neg hne]
    rfl

theorem C5_carte_walk_starts_at_index_two_witness :
    (_classification exampleTreeCARTE ("CARTE" :: "1234" :: ["RESTAURANT"])
        defaultMedataOperation
        (fun tree metadata => _readSpecificMetaData tree "_debit" metadata) =
      _classification exampleTreeCARTE ("CARTE" :: "9999" :: ["RESTAURANT"])
        defaultMedataOperation
        (fun tree metadata => _readSpecificMetaData tree "_debit" metadata)) ∧
    (_classification exampleTreeCARTE ("CARTE" :: "1234" :: ["RESTAURANT"])
        defaultMedataOperation
        (fun tree metadata => _readSpecificMetaData tree "_debit" metadata) =
      Except.ok (classifLoop
        (fun tree metadata => _readSpecificMetaData tree "_debit" metadata)
        (jget exampleTreeCARTE "CARTE") ["RESTAURANT"]
        ((fun tree metadata => _readSpecificMetaData tree "_debit" metadata)
          (jget exampleTreeCARTE "CARTE") defaultMedataOperation))) ∧
    (_classification exampleTreeCARTE ("Carte" :: ["RESTAURANT"])
        defaultMedataOperation
        (fun tree metadata => _readSpecificMetaData tree "_debit" metadata) =
      Except.ok (classifLoop
        (fun tree metadata => _readSpecificMetaData tree "_debit" metadata)
        (jget exampleTreeCARTE (jsToUpperCase "Carte")) ["RESTAURANT"]
        ((fun tree metadata => _readSpecificMetaData tree "_debit" metadata)
          (jget exampleTreeCARTE (jsToUpperCase "Carte"))
          defaultMedataOperation))) :=
  ⟨(C5_carte_walk_starts_at_index_two exampleTreeCARTE defaultMedataOperation
      _ "1234" "9999" "Carte" ["RESTAURANT"]).1,
   (C5_carte_walk_starts_at_index_two exampleTreeCARTE defaultMedataOperation
      _ "1234" "9999" "Carte" ["RESTAURANT"]).2.1 (by rfl),
   (C5_carte_walk_starts_at_index_two exampleTreeCARTE defaultMedataOperation
      _ "1234" "9999" "Carte" ["RESTAURANT"]).2.2 (by decide) (by rfl)⟩

/-- Claim C6: at a matched node the node's own default fields are
applied first and the fields of the polarity sub-record (`_credit` for
the credit entry point, `_debit` for the debit one) are applied on top,
the opposite polarity's sub-record being ignored; on the spec's example
tree, classifying `["VIR","SALAIRE"]` as credit yields the overridden
probability 90, as debit only the node defaults. -/
theorem C6_polarity_overrides_take_precedence (t : Json) (pol : String)
    (m : Metadata) :
    (_readSpecificMetaData t pol m =
      if truthy (jget t pol) = true then
        _readDefaultMetaData (jget t pol) (_readDefaultMetaData t m)
      else _readDefaultMetaData t m) ∧
    (findMetadataForCreditOperation exampleTreeVIR defaultMedataOperation
        ["VIR", "SALAIRE"] =
      Except.ok (some ⟨Json.str "5", Json.num 90, Json.str "none"⟩,
        ⟨Json.str "5", Json.num 90, Json.str "none"⟩)) ∧
    (findMetadataForDebitOperation exampleTreeVIR defaultMedataOperation
        ["VIR", "SALAIRE"] =
      Except.ok (some ⟨Json.str "5", Json.num 0, Json.str "none"⟩,
        ⟨Json.str "5", Json.num 0, Json.str "none"⟩)) :=
  ⟨rfl, rfl, rfl⟩

theorem lookup_eq_none_of_not_mem_keys {β : Type} (l : List (String × β))
    (k : String) (h : k ∉ l.map Prod.fst) : l.lookup k = none := by
  induction l with
  | nil => rfl
  | cons p l ih =>
    obtain ⟨k1, v1⟩ := p
    simp only [List.map_cons, List.mem_cons, not_or] at h
    have hne : (k == k1) = false := beq_false_of_ne h.1
    simp [List.lookup_cons, hne, ih h.2]

/-- Claim C7 fails as stated: the claim says every first token outside
the eight-entry table yields the Unknown descriptor, but
`AbbrToAccountType` is a plain object literal, so a first token naming
an `Object.prototype` property — here `"toString"` — makes the JS
lookup yield the inherited truthy value, and `|| AccountType.UNKNOWN`
never applies. -/
theorem C7_prototype_chain_counterexample :
    getAccountTypeFromCSS "toString compte" =
      AccountTypeResult.inheritedProperty "toString" ∧
    getAccountTypeFromCSS "toString compte" ≠
      AccountTypeResult.descriptor AccountType.UNKNOWN := by
  refine ⟨rfl, fun h => ?_⟩
  exact AccountTypeResult.noConfusion h

/-- Claim C7, amended: `getAccountTypeFromCSS` maps the first
whitespace token of the tag string through the eight-entry abbreviation
table, and yields the Unknown descriptor for every other first token
that does not name a property inherited from `Object.prototype`
(an inherited property name such as `"toString"` instead yields the
inherited truthy value); it never raises an error. -/
theorem C7_getAccountTypeFromCSS_resolves (css : String)
    (h : (jsSplitChar ' ' css).headD "" ∉ AbbrToAccountType.map Prod.fst)
    (h2 : (jsSplitChar ' ' css).headD "" ∉ objectPrototypeKeys) :
    getAccountTypeFromCSS css = .descriptor AccountType.UNKNOWN ∧
    getAccountTypeFromCSS "cco compte" = .descriptor AccountType.CHECKINGS ∧
    getAccountTypeFromCSS "esp" = .descriptor AccountType.CHECKINGS ∧
    getAccountTypeFromCSS "liv_a" = .descriptor AccountType.SAVINGS ∧
    getAccountTypeFromCSS "liv_d" = .descriptor AccountType.SAVINGS ∧
    getAccountTypeFromCSS "liv_p" = .descriptor AccountType.SAVINGS ∧
    getAccountTypeFromCSS "ord" = .descriptor AccountType.MARKET ∧
    getAccountTypeFromCSS "pea" = .descriptor AccountType.MARKET ∧
    getAccountTypeFromCSS "vie" = .descriptor AccountType.LIFEINSURANCE ∧
    getAccountTypeFromCSS "xyz" = .descriptor AccountType.UNKNOWN := by
  refine ⟨?_, rfl, rfl, rfl, rfl, rfl, rfl, rfl, rfl, rfl⟩
  simp only [getAccountTypeFromCSS]
  rw [lookup_eq_none_of_not_mem_keys _ _ h]
  rw [if_neg h2]

theorem C7_getAccountTypeFromCSS_resolves_witness :
    getAccountTypeFromCSS "xyz" = .descriptor AccountType.UNKNOWN :=
  (C7_getAccountTypeFromCSS_resolves "xyz" (by decide) (by decide)).1

/-- Claim C8: `handleRequestErrors` raises the vendor-unavailable
domain error exactly on the two transport error classes and passes any
other error value through unchanged as the rejection value. -/
theorem C8_handleRequestErrors_translates (p : String) :
    handleRequestErrors (RequestFailure.requestError p) =
      HandleOutcome.thrown VENDOR_DOWN ∧
    handleRequestErrors (RequestFailure.statusCodeError p) =
      HandleOutcome.thrown VENDOR_DOWN ∧
    handleRequestErrors (RequestFailure.otherError p) =
      HandleOutcome.rejectedWith (RequestFailure.otherError p) ∧
    ∀ msg, handleRequestErrors (RequestFailure.otherError p) ≠
      HandleOutcome.thrown msg := by
  refine ⟨rfl, rfl, rfl, fun msg h => ?_⟩
  exact HandleOutcome.noConfusion h

/-- Claim C9: a falsy metadata field of a tree node (0, empty string,
false, null — or an absent one) never overwrites the accumulator,
neither among the node's defaults nor inside its polarity sub-record. -/
theorem C9_falsy_fields_never_overwrite (t : Json) (pol : String)
    (m : Metadata) :
    (truthy (jget t "_id") = false →
      (_readDefaultMetaData t m).mId = m.mId) ∧
    (truthy (jget t "_proba") = false →
      (_readDefaultMetaData t m).mProba = m.mProba) ∧
    (truthy (jget t "_type") = false →
      (_readDefaultMetaData t m).mType = m.mType) ∧
    (truthy (jget t "_id") = false →
      truthy (jget (jget t pol) "_id") = false →
      (_readSpecificMetaData t pol m).mId = m.mId) ∧
    (truthy (jget t "_proba") = false →
      truthy (jget (jget t pol) "_proba") = false →
      (_readSpecificMetaData t pol m).mProba = m.mProba) ∧
    (truthy (jget t "_type") = false →
      truthy (jget (jget t pol) "_type") = false →
      (_readSpecificMetaData t pol m).mType = m.mType) := by
  unfold _readSpecificMetaData _readDefaultMetaData
  refine ⟨fun h1 => ?_, fun h2 => ?_, fun h3 => ?_,
    fun h1 h1' => ?_, fun h2 h2' => ?_, fun h3 h3' => ?_⟩ <;>
    split_ifs <;> simp_all

theorem C9_falsy_fields_never_overwrite_witness :
    (_readSpecificMetaData
      (Json.obj [("_proba", Json.num 0),
        ("_credit", Json.obj [("_proba", Json.num 0)])]) "_credit"
      ⟨Json.str "5", Json.num 90, Json.str "none"⟩).mProba = Json.num 90 :=
  (C9_falsy_fields_never_overwrite
    (Json.obj [("_proba", Json.num 0),
      ("_credit", Json.obj [("_proba", Json.num 0)])]) "_credit"
    ⟨Json.str "5", Json.num 90, Json.str "none"⟩).2.2.2.2.1 (by rfl) (by rfl)

/-- Claim C10: the `CARTE` skip is case-sensitive while root matching
is case-insensitive: a first token that uppercases to `"CARTE"` but is
not exactly `"CARTE"` still finds the `CARTE` root node, yet the walk
starts at index 1 (no extra token is skipped). -/
theorem C10_carte_skip_is_case_sensitive (classif : Json) (m : Metadata)
    (fn : Json → Metadata → Metadata) (w0 : String) (rest : List String)
    (hup : jsToUpperCase w0 = "CARTE") (hne : w0 ≠ "CARTE") :
    _classification classif (w0 :: rest) m fn =
      (if truthy (jget classif "CARTE") = true then
        Except.ok (classifLoop fn (jget classif "CARTE") rest
          (fn (jget classif "CARTE") m))
      else Except.ok (some m, m)) := by
  simp only [_classification, hup]
  rw [if_neg hne]
  rfl

theorem C10_carte_skip_is_case_sensitive_witness :
    _classification exampleTreeCARTE ("carte" :: ["RESTAURANT"])
        defaultMedataOperation
        (fun tree metadata => _readSpecificMetaData tree "_debit" metadata) =
      (if truthy (jget exampleTreeCARTE "CARTE") = true then
        Except.ok (classifLoop
          (fun tree metadata => _readSpecificMetaData tree "_debit" metadata)
          (jget exampleTreeCARTE "CARTE") ["RESTAURANT"]
          ((fun tree metadata => _readSpecificMetaData tree "_debit" metadata)
            (jget exampleTreeCARTE "CARTE") defaultMedataOperation))
      else Except.ok (some defaultMedataOperation, defaultMedataOperation)) :=
  C10_carte_skip_is_case_sensitive exampleTreeCARTE defaultMedataOperation
    _ "carte" ["RESTAURANT"] (by rfl) (by decide)

end Fortuneo
